import Mathlib

/-!
Verification development for `movies_etl.py` (class `MoviesETL`): a shallow
embedding of the decision logic of the ETL pipeline — the `transform` cleaning
step, the `load_unify` merge, the genre/director explosion of
`build_genre_director_stats`, and the per-row tuple preparation of
`load_to_mysql` — together with theorems about the behaviour of these
functions.

Modelling conventions:
* A pandas cell is a `Cell`: `null` stands for NaN/NaT/None, `str` for a
  Python string, `num m e` for the float `m / 10^e` (decimal literals, which
  is what `pd.to_numeric` produces on CSV data; the pair is kept normalised so
  that structural equality coincides with numeric equality, e.g. "1.0" and
  "1" coerce to the same cell, as the corresponding floats are equal), and
  `date y m d` for a parsed `Timestamp` (time-of-day components are not
  modelled; the pipeline never inspects them).
* A DataFrame is a `Table`: a list of column names plus a list of rows, each
  row an association list from column name to cell.  Reading a missing column
  of a frame raises `KeyError` in pandas; the corresponding operations return
  `Except String _` and check `cols` membership exactly where the Python code
  would raise.
* String helpers (`strTrim`, `strSplit`, …) are written over `String.data`
  so that every definition evaluates inside the kernel.
-/

/-! ## Character and string helpers -/

/-- Characters making up a stripped string: Python `str.strip()` removes
leading and trailing whitespace. -/
def charsTrim (cs : List Char) : List Char :=
  ((cs.dropWhile Char.isWhitespace).reverse.dropWhile Char.isWhitespace).reverse

/-- Python `str.strip()`. -/
def strTrim (s : String) : String :=
  String.mk (charsTrim s.data)

/-- Split a character list on a separator character; Python
`str.split(sep)` semantics: `"".split(sep) = [""]`, `",".split(",") = ["", ""]`. -/
def splitSep (sep : Char) : List Char → List (List Char)
  | [] => [[]]
  | c :: cs =>
    match splitSep sep cs with
    | [] => [[]]
    | g :: gs => if c = sep then [] :: g :: gs else (c :: g) :: gs

/-- Python `str.split` with a one-character separator. -/
def strSplit (sep : Char) (s : String) : List String :=
  (splitSep sep s.data).map String.mk

/-- Numeric value of a digit string (caller checks the digits). -/
def digitsToNat (cs : List Char) : Nat :=
  cs.foldl (fun a c => a * 10 + (c.toNat - 48)) 0

/-- Digit character for a value below ten. -/
def digitChar (n : Nat) : Char := Char.ofNat (48 + n)

/-- Decimal digits of a natural number, via structural fuel so the kernel can
evaluate it; `natDigits fuel n` is correct whenever `n ≤ fuel`. -/
def natDigits : Nat → Nat → List Char
  | 0, _ => []
  | _ + 1, n => if n < 10 then [digitChar n] else natDigits (n / 10) (n / 10) ++ [digitChar (n % 10)]

/-- Decimal representation of a natural number. -/
def natRepr (n : Nat) : String := String.mk (natDigits n n)

/-! ## Cells, rows, tables -/

/-- One pandas cell.  `num m e` denotes the value `m / 10^e`. -/
inductive Cell where
  | null
  | str (s : String)
  | num (m : Int) (e : Nat)
  | date (y : Int) (mo d : Nat)
deriving DecidableEq, Repr

/-- One DataFrame row: an association list from column name to cell. -/
abbrev Row := List (String × Cell)

/-- Reading a cell of a row; a column absent from the row is an NA cell. -/
def Row.get : Row → String → Cell
  | [], _ => .null
  | (k, v) :: r, c => if k = c then v else Row.get r c

/-- Writing one cell of a row (first binding wins, matching `Row.get`). -/
def Row.set : Row → String → Cell → Row
  | [], c, v => [(c, v)]
  | (k, w) :: r, c, v => if k = c then (k, v) :: r else (k, w) :: Row.set r c v

/-- One DataFrame: column names plus rows. -/
structure Table where
  cols : List String
  rows : List Row
deriving DecidableEq, Repr

/-! ## Scalar coercions (`pd.to_numeric` / `pd.to_datetime`, `errors="coerce"`) -/

/-- Strip trailing decimal zeros so that e.g. `10/10^1` and `1/10^0` are the
same cell, as the corresponding floats are equal. -/
def normDec : Int → Nat → Int × Nat
  | m, 0 => (m, 0)
  | m, e + 1 => if m % 10 = 0 then normDec (m / 10) e else (m, e + 1)

/-- Parse an unsigned decimal literal: digits with at most one point and at
least one digit overall (Python accepts `"12."` and `".5"`). -/
def parseDecCore (cs : List Char) : Option (Int × Nat) :=
  match splitSep '.' cs with
  | [i] =>
    if i ≠ [] ∧ i.all Char.isDigit then some ((digitsToNat i : Int), 0) else none
  | [i, f] =>
    if (i ++ f) ≠ [] ∧ i.all Char.isDigit ∧ f.all Char.isDigit then
      some ((digitsToNat (i ++ f) : Int), f.length)
    else none
  | _ => none

/-- Parse a decimal literal with optional sign, whitespace-tolerant, returning
the normalised decimal pair.  This models `pd.to_numeric` on the CSV-borne
literals the pipeline meets (exponent notation is not modelled). -/
def parseDecNorm (s : String) : Option (Int × Nat) :=
  let core : List Char → Option (Int × Nat) := fun cs =>
    (parseDecCore cs).map (fun p => normDec p.1 p.2)
  match charsTrim s.data with
  | '-' :: rest => (core rest).map (fun p => (-p.1, p.2))
  | '+' :: rest => core rest
  | cs => core cs

/-- Model of `pd.to_numeric(column, errors="coerce")` on one cell: numbers
pass through, parsable strings become numbers, everything unparsable becomes
absent — the call never raises. -/
def numCoerce : Cell → Cell
  | .null => .null
  | .num m e => .num m e
  | .date _ _ _ => .null
  | .str s =>
    match parseDecNorm s with
    | some (m, e) => .num m e
    | none => .null

/-- Parse an ISO `YYYY-MM-DD` date with plausibility bounds; the model of the
date formats the two CSV files carry. -/
def parseDate (s : String) : Option (Int × Nat × Nat) :=
  match strSplit '-' (strTrim s) with
  | [y, mo, d] =>
    if y.data.length = 4 ∧ y.data.all Char.isDigit ∧
       mo.data ≠ [] ∧ mo.data.length ≤ 2 ∧ mo.data.all Char.isDigit ∧
       d.data ≠ [] ∧ d.data.length ≤ 2 ∧ d.data.all Char.isDigit then
      let mv := digitsToNat mo.data
      let dv := digitsToNat d.data
      if 1 ≤ mv ∧ mv ≤ 12 ∧ 1 ≤ dv ∧ dv ≤ 31 then
        some ((digitsToNat y.data : Int), mv, dv)
      else none
    else none
  | _ => none

/-- Model of `pd.to_datetime(column, errors="coerce")` on one cell: dates pass
through, parsable strings become dates, everything else becomes absent (NaT) —
the call never raises. -/
def dateCoerce : Cell → Cell
  | .null => .null
  | .date y mo d => .date y mo d
  | .num _ _ => .null
  | .str s =>
    match parseDate s with
    | some (y, mo, d) => .date y mo d
    | none => .null

/-- Two-digit zero-padded field of a timestamp representation. -/
def pad2 (n : Nat) : String :=
  if n < 10 then String.mk ('0' :: (natRepr n).data) else natRepr n

/-- The decimal representation `str()` gives a float (sign, digits, point). -/
def decRepr (m : Int) (e : Nat) : String :=
  let digits := natRepr m.natAbs
  let digits := if digits.data.length ≤ e then
      String.mk (List.replicate (e + 1 - digits.data.length) '0' ++ digits.data)
    else digits
  let intPart := String.mk (digits.data.take (digits.data.length - e))
  let fracPart := if e = 0 then "0" else String.mk (digits.data.drop (digits.data.length - e))
  (if m < 0 then "-" else "") ++ intPart ++ "." ++ fracPart

/-- Model of Python `str()` / pandas `astype(str)` on one cell: NaN prints as
`"nan"`, strings are unchanged, floats and timestamps print canonically. -/
def cellToStr : Cell → String
  | .null => "nan"
  | .str s => s
  | .num m e => decRepr m e
  | .date y mo d => (if y < 0 then "-" else "") ++ natRepr y.natAbs ++ "-" ++ pad2 mo ++ "-" ++ pad2 d ++ " 00:00:00"

/-- One text-column cell after
`astype(str).str.strip()` then `replace(["nan", "None", ""], None)`. -/
def cleanText (c : Cell) : Cell :=
  let s := strTrim (cellToStr c)
  if s = "nan" ∨ s = "None" ∨ s = "" then .null else .str s

/-! ## Whole-column operations -/

/-- Column-name cleaning: `df.columns = df.columns.str.strip()` (the rename
applies to the whole frame, so row keys follow the column names). -/
def stripCols (t : Table) : Table :=
  { cols := t.cols.map strTrim,
    rows := t.rows.map (fun r => r.map (fun p => (strTrim p.1, p.2))) }

/-- Replace one column with a cell-wise function of itself:
`df[c] = f(df[c])`. -/
def setColF (t : Table) (c : String) (f : Cell → Cell) : Table :=
  { t with rows := t.rows.map (fun r => r.set c (f (r.get c))) }

/-- A statement `df[c] = pd.to_numeric(df[c], errors="coerce")`: reading the
column raises `KeyError` when it does not exist, otherwise every cell is
coerced and the statement cannot fail. -/
def toNumericCol (t : Table) (c : String) : Except String Table :=
  if c ∈ t.cols then .ok (setColF t c numCoerce) else .error ("KeyError: " ++ c)

/-- A statement `df[c] = pd.to_datetime(df[c], errors="coerce")`. -/
def toDatetimeCol (t : Table) (c : String) : Except String Table :=
  if c ∈ t.cols then .ok (setColF t c dateCoerce) else .error ("KeyError: " ++ c)

/-- The text columns cleaned by `MoviesETL.transform`. -/
def textColumns : List String := ["title", "overview", "genre", "director"]

/-- The text-cleaning loop of `transform`: for each candidate column, if the
frame has it, strip its values and null out `"nan"`/`"None"`/`""`. -/
def cleanTextCols (t : Table) : Table :=
  textColumns.foldl (fun t c => if c ∈ t.cols then setColF t c cleanText else t) t

/-- Row scan of `drop_duplicates(subset=[key], keep="first")`: keep a row iff
its key cell was not seen before (pandas treats NaN keys as equal). -/
def dedupByKey (key : String) : List Cell → List Row → List Row
  | _, [] => []
  | seen, r :: rs =>
    if r.get key ∈ seen then dedupByKey key seen rs
    else r :: dedupByKey key (r.get key :: seen) rs

/-- `df.drop_duplicates(subset=[key], keep="first")`. -/
def dropDuplicatesFirst (t : Table) (key : String) : Table :=
  { t with rows := dedupByKey key [] t.rows }

/-- `df.dropna(subset=[key])`. -/
def dropNa (t : Table) (key : String) : Table :=
  { t with rows := t.rows.filter (fun r => !(r.get key == Cell.null)) }

/-- Column renaming `pd.merge` applies to a non-key column shared by both
frames (suffix `_x` on the left frame, `_y` on the right one). -/
def renameCol (other : List String) (key : String) (suf : String) (c : String) : String :=
  if c = key then c else if c ∈ other then c ++ suf else c

/-- The left-frame part of one merged row: all left columns (renamed where
shared) with the left row's values. -/
def mergeLeftPart (a b : Table) (key : String) (ra : Row) : Row :=
  a.cols.map (fun c => (renameCol b.cols key "_x" c, ra.get c))

/-- The right-frame part of one merged row: the non-key right columns
(renamed where shared) with the matching right row's values, or all-NaN when
no right row matched. -/
def mergeRightPart (a b : Table) (key : String) (rb : Option Row) : Row :=
  (b.cols.filter (fun c => c != key)).map
    (fun c => (renameCol a.cols key "_y" c,
      match rb with
      | some rb => rb.get c
      | none => Cell.null))

/-- `pd.merge(a, b, on=key, how="left")`: left-frame row order is preserved,
every left row produces one output row per matching right row — or a single
right-side-all-NaN row when nothing matches — and shared non-key columns are
suffixed `_x`/`_y`. -/
def Table.merge (a b : Table) (key : String) : Table :=
  { cols := a.cols.map (renameCol b.cols key "_x") ++
      (b.cols.filter (fun c => c != key)).map (renameCol a.cols key "_y"),
    rows := a.rows.flatMap (fun ra =>
      match b.rows.filter (fun rb => rb.get key == ra.get key) with
      | [] => [mergeLeftPart a b key ra ++ mergeRightPart a b key none]
      | ms => ms.map (fun rb => mergeLeftPart a b key ra ++ mergeRightPart a b key (some rb))) }

/-- Column selection `df[cs]`: raises `KeyError` when a requested column is
missing, otherwise reorders/projects the frame onto `cs`. -/
def Table.select (t : Table) (cs : List String) : Except String Table :=
  if cs.all (fun c => t.cols.contains c) then
    .ok { cols := cs, rows := t.rows.map (fun r => cs.map (fun c => (c, r.get c))) }
  else .error "KeyError"

/-- The statement
`df["release_date"] = df["release_date"].where(pd.notna(...), None)`:
NaT becomes None; both are the absent cell of the model. -/
def fixReleaseDate (t : Table) : Table :=
  setColF t "release_date" (fun c => match c with | .null => .null | c => c)

/-! ## The pipeline -/

/-- The DataFrame-valued state of the `MoviesETL` object between `extract`
and `load_unify`. -/
structure MoviesETL where
  df_top_rated : Table
  df_genre_director : Table
deriving DecidableEq, Repr

/-- Steps 1–5 of `MoviesETL.transform`: strip column names, coerce `id` of
both frames, coerce `release_date`/`popularity`/`vote_average`/`vote_count`
of the ratings frame, then clean the text columns of both frames. -/
def transform_clean (s : MoviesETL) : Except String MoviesETL := do
  let top := stripCols s.df_top_rated
  let gd := stripCols s.df_genre_director
  let top ← toNumericCol top "id"
  let gd ← toNumericCol gd "id"
  let top ← toDatetimeCol top "release_date"
  let top ← toNumericCol top "popularity"
  let top ← toNumericCol top "vote_average"
  let top ← toNumericCol top "vote_count"
  return ⟨cleanTextCols top, cleanTextCols gd⟩

/-- `MoviesETL.transform`: the cleaning steps, then
`drop_duplicates(subset=["id"], keep="first")` and `dropna(subset=["id"])`
on both frames. -/
def transform (s : MoviesETL) : Except String MoviesETL := do
  let sc ← transform_clean s
  return ⟨dropNa (dropDuplicatesFirst sc.df_top_rated "id") "id",
          dropNa (dropDuplicatesFirst sc.df_genre_director "id") "id"⟩

/-- The column order `load_unify` projects the merged frame onto. -/
def column_order : List String :=
  ["id", "title", "genre", "director", "overview",
   "release_date", "popularity", "vote_average", "vote_count"]

/-- `MoviesETL.load_unify`: left-merge the ratings frame with the
genre/director frame on `id`, project onto `column_order`, and replace NaT
release dates by None. -/
def load_unify (s : MoviesETL) : Except String Table := do
  if s.df_top_rated.cols.contains "id" && s.df_genre_director.cols.contains "id" then
    let u ← (Table.merge s.df_top_rated s.df_genre_director "id").select column_order
    return fixReleaseDate u
  else
    .error "KeyError: id"

/-- `transform` followed by `load_unify` on the same object: the part of
`MoviesETL.run` that produces `df_unified` from the two raw frames. -/
def run_pipeline (a b : Table) : Except String Table := do
  let s ← transform ⟨a, b⟩
  load_unify s

/-! ## Genre/director explosion (`build_genre_director_stats`) -/

/-- The `.str.split(",")`/`explode`/`.str.strip()` chain on one cell: a string
splits on commas into stripped parts; on a non-string cell `.str.split` gives
NaN and exploding it yields a single NaN entry. -/
def split_cell : Cell → List Cell
  | .str s => (strSplit ',' s).map (fun p => .str (strTrim p))
  | _ => [Cell.null]

/-- The exploded fact rows of `build_genre_director_stats` for one list-valued
column: select `id` and the column, `dropna()` (a row with NaN in either
selected column is dropped), split on commas, explode, strip, and drop empty
parts — each surviving part is one `(id, value)` fact. -/
def explode_facts (col : String) (u : Table) : List (Cell × Cell) :=
  (u.rows.filter (fun r => !(r.get "id" == Cell.null) && !(r.get col == Cell.null))).flatMap
    (fun r => ((split_cell (r.get col)).filter (fun g => g != Cell.str "")).map
      (fun g => (r.get "id", g)))

/-- The genre fact rows (`df_genres` after explosion and filtering). -/
def genre_facts (u : Table) : List (Cell × Cell) := explode_facts "genre" u

/-- The director fact rows (`df_directors` after explosion and filtering). -/
def director_facts (u : Table) : List (Cell × Cell) := explode_facts "director" u

/-! ## Upsert batch preparation (`load_to_mysql`) -/

/-- Python `int()` applied to the float `m / 10^e`: truncation toward zero. -/
def pyIntOfDec (m : Int) (e : Nat) : Int := Int.tdiv m (10 ^ e)

/-- An integer literal accepted by Python `int(str)`: optional sign, digits
only (a decimal point raises). -/
def parseIntStr (s : String) : Option Int :=
  let core : List Char → Option Int := fun cs =>
    if cs ≠ [] ∧ cs.all Char.isDigit then some (digitsToNat cs : Int) else none
  match charsTrim s.data with
  | '-' :: rest => (core rest).map Neg.neg
  | '+' :: rest => core rest
  | cs => core cs

/-- `int(row[c])` with no NA guard: NaN and timestamps raise, floats truncate
toward zero, strings must be integer literals. -/
def pyIntStrict : Cell → Except String Int
  | .null => .error "ValueError: NaN"
  | .num m e => .ok (pyIntOfDec m e)
  | .date _ _ _ => .error "TypeError"
  | .str s =>
    match parseIntStr s with
    | some n => .ok n
    | none => .error "ValueError"

/-- `float(row[c]) if pd.notna(row[c]) else None`: absent stays absent, floats
pass through numerically, strings must parse, timestamps raise. -/
def pyFloatOpt : Cell → Except String (Option (Int × Nat))
  | .null => .ok none
  | .num m e => .ok (some (m, e))
  | .date _ _ _ => .error "TypeError"
  | .str s =>
    match parseDecNorm s with
    | some p => .ok (some p)
    | none => .error "ValueError"

/-- `int(row[c]) if pd.notna(row[c]) else None`. -/
def pyIntOpt : Cell → Except String (Option Int)
  | .null => .ok none
  | .num m e => .ok (some (pyIntOfDec m e))
  | .date _ _ _ => .error "TypeError"
  | .str s =>
    match parseIntStr s with
    | some n => .ok (some n)
    | none => .error "ValueError"

/-- One tuple of the `executemany` batch of `load_to_mysql`. -/
structure MovieTuple where
  id : Int
  title : Cell
  genre : Cell
  director : Cell
  overview : Cell
  release_date : Cell
  popularity : Option (Int × Nat)
  vote_average : Option (Int × Nat)
  vote_count : Option Int
deriving DecidableEq, Repr

/-- The `director_val` block of the batch loop of `load_to_mysql`: a string
director is stripped and truncated to its first 300 characters when longer;
any other cell passes through unchanged. -/
def truncDirector : Cell → Cell
  | .str s0 =>
    let s := strTrim s0
    if 300 < s.data.length then .str (String.mk (s.data.take 300)) else .str s
  | c => c

/-- The per-row body of the batch loop of `load_to_mysql`: strip the director
and truncate it to 300 characters when longer, then build the parameter tuple
`(int(id), title, genre, director, overview, release_date, float-or-None
popularity and vote_average, int-or-None vote_count)`. -/
def load_to_mysql_row (r : Row) : Except String MovieTuple := do
  let director_val : Cell := truncDirector (r.get "director")
  let idv ← pyIntStrict (r.get "id")
  let pop ← pyFloatOpt (r.get "popularity")
  let va ← pyFloatOpt (r.get "vote_average")
  let vc ← pyIntOpt (r.get "vote_count")
  return ⟨idv, r.get "title", r.get "genre", director_val,
          r.get "overview", r.get "release_date", pop, va, vc⟩

/-! ## Basic lemmas about rows and column operations -/

theorem Row.get_set_self (r : Row) (c : String) (v : Cell) : (r.set c v).get c = v := by
  induction r with
  | nil => simp [Row.set, Row.get]
  | cons p r ih =>
    obtain ⟨k, w⟩ := p
    by_cases hk : k = c
    · simp [Row.set, hk, Row.get]
    · simp [Row.set, hk, Row.get, ih]

theorem Row.get_set_ne (r : Row) (c c' : String) (v : Cell) (h : c' ≠ c) :
    (r.set c v).get c' = r.get c' := by
  induction r with
  | nil => simp [Row.set, Row.get, if_neg (Ne.symm h)]
  | cons p r ih =>
    obtain ⟨k, w⟩ := p
    by_cases hk : k = c
    · subst hk
      simp [Row.set, Row.get, if_neg (fun hh : k = c' => h hh.symm)]
    · by_cases hk' : k = c'
      · subst hk'
        simp [Row.set, if_neg hk, Row.get]
      · simp [Row.set, if_neg hk, Row.get, hk', ih]

theorem setColF_cols (t : Table) (c : String) (f : Cell → Cell) :
    (setColF t c f).cols = t.cols := rfl

theorem mem_setColF (t : Table) (c : String) (f : Cell → Cell) (r : Row)
    (h : r ∈ (setColF t c f).rows) : ∃ r0 ∈ t.rows, r = r0.set c (f (r0.get c)) := by
  simp only [setColF, List.mem_map] at h
  obtain ⟨r0, h0, hr⟩ := h
  exact ⟨r0, h0, hr.symm⟩

/-- Rewriting a column leaves every other column of every row unchanged. -/
theorem setColF_pres (t : Table) (c c' : String) (f : Cell → Cell) (P : Cell → Prop)
    (hne : c' ≠ c) (h : ∀ r ∈ t.rows, P (r.get c')) :
    ∀ r ∈ (setColF t c f).rows, P (r.get c') := by
  intro r hr
  obtain ⟨r0, h0, hr0⟩ := mem_setColF t c f r hr
  rw [hr0, Row.get_set_ne _ _ _ _ hne]
  exact h r0 h0

/-- After rewriting a column, every cell of it is an output of the rewriting
function. -/
theorem setColF_self (t : Table) (c : String) (f : Cell → Cell) (P : Cell → Prop)
    (hf : ∀ x, P (f x)) : ∀ r ∈ (setColF t c f).rows, P (r.get c) := by
  intro r hr
  obtain ⟨r0, h0, hr0⟩ := mem_setColF t c f r hr
  rw [hr0, Row.get_set_self]
  exact hf _

/-! ## Shape predicates for coerced columns -/

/-- A cell that is a float or absent (what `pd.to_numeric(…, coerce)` leaves). -/
def numOrNull (c : Cell) : Prop := c = .null ∨ ∃ m e, c = .num m e

/-- A cell that is a timestamp or absent (what `pd.to_datetime(…, coerce)` leaves). -/
def dateOrNull (c : Cell) : Prop := c = .null ∨ ∃ y mo d, c = .date y mo d

/-- A cell that is a string or absent (what the text cleaning leaves). -/
def strOrNull (c : Cell) : Prop := c = .null ∨ ∃ s, c = .str s

theorem numCoerce_numOrNull (c : Cell) : numOrNull (numCoerce c) := by
  cases c with
  | null => exact Or.inl rfl
  | num m e => exact Or.inr ⟨m, e, rfl⟩
  | date y mo d => exact Or.inl rfl
  | str s =>
    simp only [numCoerce]
    cases parseDecNorm s with
    | none => exact Or.inl rfl
    | some p => exact Or.inr ⟨p.1, p.2, rfl⟩

theorem dateCoerce_dateOrNull (c : Cell) : dateOrNull (dateCoerce c) := by
  cases c with
  | null => exact Or.inl rfl
  | num m e => exact Or.inl rfl
  | date y mo d => exact Or.inr ⟨y, mo, d, rfl⟩
  | str s =>
    simp only [dateCoerce]
    cases parseDate s with
    | none => exact Or.inl rfl
    | some p => exact Or.inr ⟨p.1, p.2.1, p.2.2, rfl⟩

theorem cleanText_strOrNull (c : Cell) : strOrNull (cleanText c) := by
  simp only [cleanText]
  split
  · exact Or.inl rfl
  · exact Or.inr ⟨_, rfl⟩

/-! ## Lemmas about the text-cleaning fold -/

/-- The one-column step of the text-cleaning fold. -/
def cleanStep (t : Table) (c : String) : Table :=
  if c ∈ t.cols then setColF t c cleanText else t

theorem cleanTextCols_def (t : Table) :
    cleanTextCols t = textColumns.foldl cleanStep t := rfl

theorem cleanStep_cols (t : Table) (c : String) : (cleanStep t c).cols = t.cols := by
  simp only [cleanStep]
  split <;> rfl

theorem foldClean_cols (cs : List String) (t : Table) :
    (cs.foldl cleanStep t).cols = t.cols := by
  induction cs generalizing t with
  | nil => rfl
  | cons c cs ih => rw [List.foldl_cons, ih, cleanStep_cols]

theorem cleanTextCols_cols (t : Table) : (cleanTextCols t).cols = t.cols := by
  rw [cleanTextCols_def, foldClean_cols]

/-- A property of a column preserved by `cleanText` survives the whole
text-cleaning fold. -/
theorem foldClean_pres_strong (cs : List String) (t : Table) (c : String) (P : Cell → Prop)
    (hP : ∀ x, P (cleanText x)) (h : ∀ r ∈ t.rows, P (r.get c)) :
    ∀ r ∈ (cs.foldl cleanStep t).rows, P (r.get c) := by
  induction cs generalizing t with
  | nil => exact h
  | cons c0 cs ih =>
    rw [List.foldl_cons]
    refine ih (cleanStep t c0) ?_
    simp only [cleanStep]
    split
    · by_cases hcc : c = c0
      · subst hcc
        exact setColF_self t c cleanText P hP
      · exact setColF_pres t c0 c cleanText P hcc h
    · exact h

/-- A property of a column untouched by the fold survives it. -/
theorem foldClean_pres (cs : List String) (t : Table) (c : String) (P : Cell → Prop)
    (hc : c ∉ cs) (h : ∀ r ∈ t.rows, P (r.get c)) :
    ∀ r ∈ (cs.foldl cleanStep t).rows, P (r.get c) := by
  induction cs generalizing t with
  | nil => exact h
  | cons c0 cs ih =>
    have hc1 : c ≠ c0 := fun hh => hc (hh ▸ List.mem_cons_self c0 cs)
    have hc2 : c ∉ cs := fun hh => hc (List.mem_cons_of_mem c0 hh)
    rw [List.foldl_cons]
    have hnext : ∀ r ∈ (cleanStep t c0).rows, P (r.get c) := by
      simp only [cleanStep]
      split
      · exact setColF_pres t c0 c cleanText P hc1 h
      · exact h
    exact ih (cleanStep t c0) hc2 hnext

/-- Once the fold reaches a text column actually present in the frame, that
column is all `cleanText` outputs from then on. -/
theorem foldClean_establish (cs : List String) (t : Table) (c : String) (P : Cell → Prop)
    (hP : ∀ x, P (cleanText x)) (hcs : c ∈ cs) (hcol : c ∈ t.cols) :
    ∀ r ∈ (cs.foldl cleanStep t).rows, P (r.get c) := by
  induction cs generalizing t with
  | nil => exact absurd hcs (List.not_mem_nil c)
  | cons c0 cs ih =>
    rw [List.foldl_cons]
    by_cases hcc : c = c0
    · subst hcc
      have hstep : cleanStep t c = setColF t c cleanText := by
        simp only [cleanStep, if_pos hcol]
      rw [hstep]
      exact foldClean_pres_strong cs _ c P hP (setColF_self t c cleanText P hP)
    · have hcs' : c ∈ cs := by
        rcases List.mem_cons.mp hcs with h1 | h1
        · exact absurd h1 hcc
        · exact h1
      have hcol' : c ∈ (cleanStep t c0).cols := by
        rw [cleanStep_cols]
        exact hcol
      exact ih (cleanStep t c0) hcs' hcol'

theorem cleanTextCols_pres (t : Table) (c : String) (P : Cell → Prop)
    (hc : c ∉ textColumns) (h : ∀ r ∈ t.rows, P (r.get c)) :
    ∀ r ∈ (cleanTextCols t).rows, P (r.get c) := by
  rw [cleanTextCols_def]
  exact foldClean_pres _ t c P hc h

theorem cleanTextCols_strOrNull (t : Table) (c : String)
    (hc : c ∈ textColumns) (hcol : c ∈ t.cols) :
    ∀ r ∈ (cleanTextCols t).rows, strOrNull (r.get c) := by
  rw [cleanTextCols_def]
  exact foldClean_establish _ t c strOrNull cleanText_strOrNull hc hcol

/-! ## Lemmas about `drop_duplicates` and `dropna` -/

theorem dedupByKey_sublist (key : String) (seen : List Cell) (rs : List Row) :
    List.Sublist (dedupByKey key seen rs) rs := by
  induction rs generalizing seen with
  | nil => exact List.Sublist.refl []
  | cons r rs ih =>
    simp only [dedupByKey]
    split
    · exact List.Sublist.cons r (ih seen)
    · exact List.Sublist.cons₂ r (ih _)

theorem dedupByKey_not_mem_seen (key : String) (seen : List Cell) (rs : List Row) (r : Row)
    (h : r ∈ dedupByKey key seen rs) : r.get key ∉ seen := by
  induction rs generalizing seen with
  | nil => exact absurd h (List.not_mem_nil r)
  | cons r0 rs ih =>
    simp only [dedupByKey] at h
    split at h
    · exact ih seen h
    · rcases List.mem_cons.mp h with h1 | h1
      · subst h1
        assumption
      · intro hmem
        exact ih _ h1 (List.mem_cons_of_mem _ hmem)

theorem dedupByKey_pairwise (key : String) (seen : List Cell) (rs : List Row) :
    (dedupByKey key seen rs).Pairwise (fun r1 r2 => r1.get key ≠ r2.get key) := by
  induction rs generalizing seen with
  | nil => exact List.Pairwise.nil
  | cons r0 rs ih =>
    simp only [dedupByKey]
    split
    · exact ih seen
    · refine List.Pairwise.cons ?_ (ih _)
      intro r' hr' heq
      exact dedupByKey_not_mem_seen key _ rs r' hr'
        (heq ▸ List.mem_cons_self (r0.get key) seen)

/-- Each survivor of `drop_duplicates(keep="first")` is the first row of the
input carrying its key value. -/
theorem dedupByKey_first (key : String) (seen : List Cell) (rs : List Row) (r : Row)
    (h : r ∈ dedupByKey key seen rs) :
    rs.find? (fun r0 => r0.get key == r.get key) = some r := by
  induction rs generalizing seen with
  | nil => exact absurd h (List.not_mem_nil r)
  | cons r0 rs ih =>
    simp only [dedupByKey] at h
    by_cases hseen : r0.get key ∈ seen
    · rw [if_pos hseen] at h
      have hne : r0.get key ≠ r.get key := by
        intro heq
        exact dedupByKey_not_mem_seen key seen rs r h (heq ▸ hseen)
      rw [List.find?_cons_of_neg _ (by simpa using hne)]
      exact ih seen h
    · rw [if_neg hseen] at h
      rcases List.mem_cons.mp h with h1 | h1
      · subst h1
        rw [List.find?_cons_of_pos _ (by simp)]
      · have hne : r0.get key ≠ r.get key := by
          intro heq
          exact dedupByKey_not_mem_seen key _ rs r h1 (heq ▸ List.mem_cons_self _ seen)
        rw [List.find?_cons_of_neg _ (by simpa using hne)]
        exact ih _ h1

/-- Every key value of the input survives `drop_duplicates` (through some
representative row). -/
theorem dedupByKey_complete (key : String) (seen : List Cell) (rs : List Row) (r : Row)
    (hr : r ∈ rs) (hs : r.get key ∉ seen) :
    ∃ r' ∈ dedupByKey key seen rs, r'.get key = r.get key := by
  induction rs generalizing seen with
  | nil => exact absurd hr (List.not_mem_nil r)
  | cons r0 rs ih =>
    simp only [dedupByKey]
    by_cases hseen : r0.get key ∈ seen
    · rw [if_pos hseen]
      rcases List.mem_cons.mp hr with h1 | h1
      · exact absurd (h1 ▸ hseen) hs
      · exact ih seen h1 hs
    · rw [if_neg hseen]
      by_cases heq : r.get key = r0.get key
      · exact ⟨r0, List.mem_cons_self _ _, heq.symm⟩
      · rcases List.mem_cons.mp hr with h1 | h1
        · exact absurd (congrArg (Row.get · key) h1) heq
        · obtain ⟨r', hmem, hkey⟩ := ih (r0.get key :: seen) h1 (by
            intro hmem
            rcases List.mem_cons.mp hmem with h2 | h2
            · exact heq h2
            · exact hs h2)
          exact ⟨r', List.mem_cons_of_mem _ hmem, hkey⟩

theorem dropNa_rows (t : Table) (key : String) :
    (dropNa t key).rows = t.rows.filter (fun r => !(r.get key == Cell.null)) := rfl

theorem mem_dropNa (t : Table) (key : String) (r : Row) :
    r ∈ (dropNa t key).rows ↔ r ∈ t.rows ∧ r.get key ≠ Cell.null := by
  simp [dropNa, List.mem_filter]

/-- The per-table second half of `transform`: its survivors are exactly the
first-occurrence rows with a parsable (non-null, post-coercion) key. -/
theorem dedup_dropna_spec (t : Table) (key : String) :
    List.Sublist (dropNa (dropDuplicatesFirst t key) key).rows t.rows ∧
    (∀ r ∈ (dropNa (dropDuplicatesFirst t key) key).rows, r.get key ≠ Cell.null) ∧
    (∀ r ∈ (dropNa (dropDuplicatesFirst t key) key).rows,
      t.rows.find? (fun r0 => r0.get key == r.get key) = some r) ∧
    (dropNa (dropDuplicatesFirst t key) key).rows.Pairwise
      (fun r1 r2 => r1.get key ≠ r2.get key) ∧
    (∀ r ∈ t.rows, r.get key ≠ Cell.null →
      ∃ r' ∈ (dropNa (dropDuplicatesFirst t key) key).rows, r'.get key = r.get key) := by
  refine ⟨?_, ?_, ?_, ?_, ?_⟩
  · exact ((List.filter_sublist _).trans (dedupByKey_sublist key [] t.rows))
  · intro r hr
    exact ((mem_dropNa _ key r).mp hr).2
  · intro r hr
    exact dedupByKey_first key [] t.rows r ((mem_dropNa _ key r).mp hr).1
  · exact (dedupByKey_pairwise key [] t.rows).sublist (List.filter_sublist _)
  · intro r hr hkey
    obtain ⟨r', hmem, heq⟩ := dedupByKey_complete key [] t.rows r hr (List.not_mem_nil _)
    refine ⟨r', (mem_dropNa _ key r').mpr ⟨hmem, ?_⟩, heq⟩
    rw [heq]
    exact hkey

/-! ## Lemmas about `pd.merge` column renaming -/

theorem string_append_data (s t : String) : (s ++ t).data = s.data ++ t.data := by
  cases s
  cases t
  rfl

/-- No string extended with the merge suffix `_x` is the key name `id`. -/
theorem append_x_ne_id (c : String) : c ++ "_x" ≠ "id" := by
  intro h
  have h2 : c.data ++ ['_', 'x'] = ['i', 'd'] := by
    have := congrArg String.data h
    rwa [string_append_data] at this
  have h3 := congrArg List.reverse h2
  simp at h3

/-- No string extended with the merge suffix `_x` is the column name `title`. -/
theorem append_x_ne_title (c : String) : c ++ "_x" ≠ "title" := by
  intro h
  have h2 : c.data ++ ['_', 'x'] = ['t', 'i', 't', 'l', 'e'] := by
    have := congrArg String.data h
    rwa [string_append_data] at this
  have h3 := congrArg List.reverse h2
  simp at h3

/-- No string extended with the merge suffix `_y` is the column name `title`. -/
theorem append_y_ne_title (c : String) : c ++ "_y" ≠ "title" := by
  intro h
  have h2 : c.data ++ ['_', 'y'] = ['t', 'i', 't', 'l', 'e'] := by
    have := congrArg String.data h
    rwa [string_append_data] at this
  have h3 := congrArg List.reverse h2
  simp at h3

theorem renameCol_key (other : List String) (key suf : String) :
    renameCol other key suf key = key := by
  simp [renameCol]

/-- Only the key itself renames to the key (the suffix cannot produce it). -/
theorem renameCol_eq_key (other : List String) (key suf c : String)
    (hsuf : ∀ c0, c0 ++ suf ≠ key) (h : renameCol other key suf c = key) : c = key := by
  by_cases hc : c = key
  · exact hc
  · simp only [renameCol, if_neg hc] at h
    split at h
    · exact absurd h (hsuf c)
    · exact h

/-- A shared non-key column name does not survive renaming: no column of the
renamed frame carries it. -/
theorem renameCol_ne (other : List String) (key suf t c : String)
    (hsuf : ∀ c0, c0 ++ suf ≠ t) (htk : t ≠ key) (hto : t ∈ other) :
    renameCol other key suf c ≠ t := by
  by_cases hc : c = key
  · subst hc
    rw [renameCol_key]
    exact fun hh => htk hh.symm
  · simp only [renameCol, if_neg hc]
    split
    · exact hsuf c
    · intro hh
      subst hh
      simp_all

/-! ## Lemmas about rows built by `merge` and `select` -/

/-- Reading a column out of a row assembled by mapping over column names:
the first matching name wins, and renaming is transparent on a name only the
key maps to. -/
theorem get_ren_append (cols : List String) (ren : String → String) (f : String → Cell)
    (rest : Row) (t : String) (hmem : t ∈ cols) (hren_t : ren t = t)
    (hren_inj : ∀ c, ren c = t → c = t) :
    Row.get (cols.map (fun c => (ren c, f c)) ++ rest) t = f t := by
  induction cols with
  | nil => exact absurd hmem (List.not_mem_nil t)
  | cons c cs ih =>
    simp only [List.map_cons, List.cons_append, Row.get]
    by_cases hc : ren c = t
    · rw [if_pos hc, hren_inj c hc]
    · rw [if_neg hc]
      rcases List.mem_cons.mp hmem with h1 | h1
      · exact absurd (h1 ▸ hren_t) hc
      · exact ih h1

/-- In a list of rows with pairwise-distinct keys at most one row matches a
given key value. -/
theorem filter_key_len_le_one (l : List Row) (key : String) (v : Cell)
    (h : l.Pairwise (fun r1 r2 => r1.get key ≠ r2.get key)) :
    (l.filter (fun rb => rb.get key == v)).length ≤ 1 := by
  induction l with
  | nil => simp
  | cons r l ih =>
    rw [List.pairwise_cons] at h
    by_cases hr : r.get key = v
    · rw [List.filter_cons_of_pos (by simpa using hr)]
      have hnil : l.filter (fun rb => rb.get key == v) = [] := by
        rw [List.filter_eq_nil_iff]
        intro rb hrb
        simp only [beq_iff_eq]
        intro heq
        exact h.1 rb hrb (hr.trans heq.symm)
      rw [hnil]
      exact Nat.le_refl 1
    · rw [List.filter_cons_of_neg (by simpa using hr)]
      exact ih h.2

/-! ## Lemmas about `merge`, `select` and `load_unify` -/

/-- Reading a left-frame column of a merged row gives the left row's value
(for a column only the key renames onto, such as the key itself). -/
theorem mergeLeftPart_get (a b : Table) (ra : Row) (rest : Row) (t : String)
    (hmem : t ∈ a.cols) (hren_t : renameCol b.cols "id" "_x" t = t)
    (hren_inj : ∀ c, renameCol b.cols "id" "_x" c = t → c = t) :
    Row.get (mergeLeftPart a b "id" ra ++ rest) t = ra.get t :=
  get_ren_append a.cols _ _ rest t hmem hren_t hren_inj

/-- With pairwise-distinct right keys, `merge` on `id` yields exactly one row
per left row, in left order, carrying the left row's key. -/
theorem merge_rows_map_id (a b : Table) (hid : "id" ∈ a.cols)
    (hpw : b.rows.Pairwise (fun r1 r2 => r1.get "id" ≠ r2.get "id")) :
    (Table.merge a b "id").rows.map (fun r => r.get "id") =
      a.rows.map (fun r => r.get "id") := by
  simp only [Table.merge]
  induction a.rows with
  | nil => rfl
  | cons ra l ih =>
    rw [List.flatMap_cons, List.map_append, List.map_cons, ih]
    have hinj : ∀ c, renameCol b.cols "id" "_x" c = "id" → c = "id" :=
      fun c hc => renameCol_eq_key b.cols "id" "_x" c append_x_ne_id hc
    have hkey : renameCol b.cols "id" "_x" "id" = "id" := renameCol_key _ _ _
    cases hm : b.rows.filter (fun rb => rb.get "id" == ra.get "id") with
    | nil =>
      simp only [hm, List.map_cons, List.map_nil]
      rw [mergeLeftPart_get a b ra _ "id" hid hkey hinj]
      rfl
    | cons rb ms =>
      have hlen := filter_key_len_le_one b.rows "id" (ra.get "id") hpw
      rw [hm] at hlen
      cases ms with
      | nil =>
        simp only [hm, List.map_cons, List.map_nil]
        rw [mergeLeftPart_get a b ra _ "id" hid hkey hinj]
        rfl
      | cons rb2 ms2 => simp at hlen

theorem select_ok (t : Table) (cs : List String) (u : Table)
    (h : t.select cs = .ok u) :
    u.cols = cs ∧
    u.rows = t.rows.map (fun r => cs.map (fun c => (c, r.get c))) ∧
    ∀ c ∈ cs, c ∈ t.cols := by
  simp only [Table.select] at h
  split at h
  · refine ⟨?_, ?_, ?_⟩
    · exact (congrArg Table.cols (Except.ok.inj h)).symm
    · exact (congrArg Table.rows (Except.ok.inj h)).symm
    · intro c hc
      rename_i hall
      rw [List.all_eq_true] at hall
      have := hall c hc
      simpa [List.contains] using this
  · exact absurd h (by simp)

/-- A selection fails whenever one requested column is absent. -/
theorem select_error (t : Table) (cs : List String) (c : String)
    (hc : c ∈ cs) (hmem : c ∉ t.cols) : ∃ e, t.select cs = .error e := by
  simp only [Table.select]
  split
  · rename_i hall
    rw [List.all_eq_true] at hall
    have := hall c hc
    simp only [List.contains] at this
    exact absurd (by simpa using this) hmem
  · exact ⟨_, rfl⟩

/-- Reading a selected column of a projected row gives the original value. -/
theorem select_row_get (r : Row) (cs : List String) (t : String) (hmem : t ∈ cs) :
    Row.get (cs.map (fun c => (c, r.get c))) t = r.get t := by
  have := get_ren_append cs id (fun c => r.get c) [] t hmem rfl (fun _ h => h)
  simpa using this

theorem fixReleaseDate_rows_len (t : Table) :
    (fixReleaseDate t).rows.length = t.rows.length := by
  simp [fixReleaseDate, setColF]

theorem fixReleaseDate_map_get (t : Table) (c : String) (hc : c ≠ "release_date") :
    (fixReleaseDate t).rows.map (fun r => r.get c) = t.rows.map (fun r => r.get c) := by
  simp only [fixReleaseDate, setColF, List.map_map]
  refine List.map_congr_left ?_
  intro r hr
  exact Row.get_set_ne r "release_date" c _ hc

/-! ## Computation lemmas for `Except` chains -/

theorem except_bind_ok {ε α β : Type} (x : α) (f : α → Except ε β) :
    (Except.ok x : Except ε α) >>= f = f x := rfl

theorem except_bind_err {ε α β : Type} (e : ε) (f : α → Except ε β) :
    (Except.error e : Except ε α) >>= f = .error e := rfl

theorem except_map_ok {ε α β : Type} (g : α → β) (x : α) :
    g <$> (Except.ok x : Except ε α) = .ok (g x) := rfl

theorem except_map_err {ε α β : Type} (g : α → β) (e : ε) :
    g <$> (Except.error e : Except ε α) = .error e := rfl

theorem except_pure {ε α : Type} (x : α) : (pure x : Except ε α) = .ok x := rfl

/-! ## Shape of a successful `transform` and `load_unify` -/

/-- The cleaned ratings frame of a successful `transform_clean`, written out
as the composite of the source's statements. -/
def cleanedTop (a : Table) : Table :=
  cleanTextCols
    (setColF
      (setColF
        (setColF
          (setColF (setColF (stripCols a) "id" numCoerce) "release_date" dateCoerce)
          "popularity" numCoerce)
        "vote_average" numCoerce)
      "vote_count" numCoerce)

/-- The cleaned genre/director frame of a successful `transform_clean`. -/
def cleanedGd (b : Table) : Table :=
  cleanTextCols (setColF (stripCols b) "id" numCoerce)

theorem transform_clean_ok (a b : Table)
    (h1 : "id" ∈ (stripCols a).cols) (h2 : "id" ∈ (stripCols b).cols)
    (h3 : "release_date" ∈ (stripCols a).cols) (h4 : "popularity" ∈ (stripCols a).cols)
    (h5 : "vote_average" ∈ (stripCols a).cols) (h6 : "vote_count" ∈ (stripCols a).cols) :
    transform_clean ⟨a, b⟩ = .ok ⟨cleanedTop a, cleanedGd b⟩ := by
  simp [transform_clean, toNumericCol, toDatetimeCol, setColF_cols, h1, h2, h3, h4, h5, h6,
    except_bind_ok, except_bind_err, except_map_ok, except_pure, cleanedTop, cleanedGd]

theorem transform_clean_shape (a b : Table) (sc : MoviesETL)
    (h : transform_clean ⟨a, b⟩ = .ok sc) :
    sc = ⟨cleanedTop a, cleanedGd b⟩ ∧
    "id" ∈ (stripCols a).cols ∧ "id" ∈ (stripCols b).cols ∧
    "release_date" ∈ (stripCols a).cols ∧ "popularity" ∈ (stripCols a).cols ∧
    "vote_average" ∈ (stripCols a).cols ∧ "vote_count" ∈ (stripCols a).cols := by
  have h1 : "id" ∈ (stripCols a).cols := by
    by_contra hc
    simp [transform_clean, toNumericCol, hc, except_bind_err] at h
  have h2 : "id" ∈ (stripCols b).cols := by
    by_contra hc
    simp [transform_clean, toNumericCol, setColF_cols, h1, hc,
      except_bind_ok, except_bind_err] at h
  have h3 : "release_date" ∈ (stripCols a).cols := by
    by_contra hc
    simp [transform_clean, toNumericCol, toDatetimeCol, setColF_cols, h1, h2, hc,
      except_bind_ok, except_bind_err] at h
  have h4 : "popularity" ∈ (stripCols a).cols := by
    by_contra hc
    simp [transform_clean, toNumericCol, toDatetimeCol, setColF_cols, h1, h2, h3, hc,
      except_bind_ok, except_bind_err] at h
  have h5 : "vote_average" ∈ (stripCols a).cols := by
    by_contra hc
    simp [transform_clean, toNumericCol, toDatetimeCol, setColF_cols, h1, h2, h3, h4, hc,
      except_bind_ok, except_bind_err] at h
  have h6 : "vote_count" ∈ (stripCols a).cols := by
    by_contra hc
    simp [transform_clean, toNumericCol, toDatetimeCol, setColF_cols, h1, h2, h3, h4, h5, hc,
      except_bind_ok, except_bind_err] at h
  rw [transform_clean_ok a b h1 h2 h3 h4 h5 h6] at h
  exact ⟨(Except.ok.inj h).symm, h1, h2, h3, h4, h5, h6⟩

theorem transform_shape (a b : Table) (s' : MoviesETL)
    (h : transform ⟨a, b⟩ = .ok s') :
    ∃ sc, transform_clean ⟨a, b⟩ = .ok sc ∧
      s' = ⟨dropNa (dropDuplicatesFirst sc.df_top_rated "id") "id",
            dropNa (dropDuplicatesFirst sc.df_genre_director "id") "id"⟩ := by
  simp only [transform] at h
  cases hc : transform_clean ⟨a, b⟩ with
  | error e =>
    rw [hc, except_bind_err] at h
    exact absurd h (by simp)
  | ok sc =>
    rw [hc, except_bind_ok] at h
    refine ⟨sc, rfl, ?_⟩
    simpa [except_pure] using (Except.ok.inj h).symm

theorem load_unify_shape (s : MoviesETL) (u : Table)
    (h : load_unify s = .ok u) :
    "id" ∈ s.df_top_rated.cols ∧ "id" ∈ s.df_genre_director.cols ∧
    ∃ u0, (Table.merge s.df_top_rated s.df_genre_director "id").select column_order = .ok u0 ∧
      u = fixReleaseDate u0 := by
  simp only [load_unify] at h
  split at h
  · rename_i hguard
    rw [Bool.and_eq_true] at hguard
    refine ⟨by simpa [List.contains] using hguard.1, by simpa [List.contains] using hguard.2, ?_⟩
    cases hs : (Table.merge s.df_top_rated s.df_genre_director "id").select column_order with
    | error e =>
      rw [hs, except_bind_err] at h
      exact absurd h (by simp)
    | ok u0 =>
      rw [hs, except_bind_ok] at h
      exact ⟨u0, rfl, by simpa [except_pure] using (Except.ok.inj h).symm⟩
  · exact absurd h (by simp)

/-! ## Pipeline-level helper lemmas -/

theorem stripCols_cols (t : Table) : (stripCols t).cols = t.cols.map strTrim := rfl

theorem dropNa_cols (t : Table) (key : String) : (dropNa t key).cols = t.cols := rfl

theorem dropDuplicatesFirst_cols (t : Table) (key : String) :
    (dropDuplicatesFirst t key).cols = t.cols := rfl

theorem cleanedTop_cols (a : Table) : (cleanedTop a).cols = a.cols.map strTrim := by
  rw [cleanedTop, cleanTextCols_cols]
  rfl

theorem cleanedGd_cols (b : Table) : (cleanedGd b).cols = b.cols.map strTrim := by
  rw [cleanedGd, cleanTextCols_cols]
  rfl

/-- The `id` column of the cleaned ratings frame is all floats-or-NaN. -/
theorem cleanedTop_id_numOrNull (a : Table) :
    ∀ r ∈ (cleanedTop a).rows, numOrNull (r.get "id") := by
  rw [cleanedTop]
  refine cleanTextCols_pres _ "id" numOrNull (by decide) ?_
  refine setColF_pres _ _ _ _ _ (by decide) ?_
  refine setColF_pres _ _ _ _ _ (by decide) ?_
  refine setColF_pres _ _ _ _ _ (by decide) ?_
  refine setColF_pres _ _ _ _ _ (by decide) ?_
  exact setColF_self _ _ _ _ numCoerce_numOrNull

/-- The coerced numeric columns of the cleaned ratings frame are all
floats-or-NaN. -/
theorem cleanedTop_numCols (a : Table) :
    ∀ r ∈ (cleanedTop a).rows,
      numOrNull (r.get "popularity") ∧ numOrNull (r.get "vote_average") ∧
      numOrNull (r.get "vote_count") ∧ dateOrNull (r.get "release_date") := by
  rw [cleanedTop]
  intro r hr
  refine ⟨?_, ?_, ?_, ?_⟩
  · refine cleanTextCols_pres _ "popularity" numOrNull (by decide) ?_ r hr
    refine setColF_pres _ _ _ _ _ (by decide) ?_
    refine setColF_pres _ _ _ _ _ (by decide) ?_
    exact setColF_self _ _ _ _ numCoerce_numOrNull
  · refine cleanTextCols_pres _ "vote_average" numOrNull (by decide) ?_ r hr
    refine setColF_pres _ _ _ _ _ (by decide) ?_
    exact setColF_self _ _ _ _ numCoerce_numOrNull
  · refine cleanTextCols_pres _ "vote_count" numOrNull (by decide) ?_ r hr
    exact setColF_self _ _ _ _ numCoerce_numOrNull
  · refine cleanTextCols_pres _ "release_date" dateOrNull (by decide) ?_ r hr
    refine setColF_pres _ _ _ _ _ (by decide) ?_
    refine setColF_pres _ _ _ _ _ (by decide) ?_
    refine setColF_pres _ _ _ _ _ (by decide) ?_
    exact setColF_self _ _ _ _ dateCoerce_dateOrNull

/-- The `id` column of the cleaned genre/director frame is all floats-or-NaN. -/
theorem cleanedGd_id_numOrNull (b : Table) :
    ∀ r ∈ (cleanedGd b).rows, numOrNull (r.get "id") := by
  rw [cleanedGd]
  refine cleanTextCols_pres _ "id" numOrNull (by decide) ?_
  exact setColF_self _ _ _ _ numCoerce_numOrNull

/-- Identifiers of both transformed frames are genuine floats: coercion plus
`dropna` leaves no NaN and nothing non-numeric. -/
theorem transform_ids_num (a b : Table) (s' : MoviesETL)
    (h : transform ⟨a, b⟩ = .ok s') :
    (∀ r ∈ s'.df_top_rated.rows, ∃ m e, r.get "id" = Cell.num m e) ∧
    (∀ r ∈ s'.df_genre_director.rows, ∃ m e, r.get "id" = Cell.num m e) := by
  obtain ⟨sc, hsc, hs'⟩ := transform_shape a b s' h
  obtain ⟨hsc_eq, -⟩ := transform_clean_shape a b sc hsc
  subst hs'
  subst hsc_eq
  constructor
  · intro r hr
    obtain ⟨hsub, hnn, -, -, -⟩ := dedup_dropna_spec (cleanedTop a) "id"
    have hmem : r ∈ (cleanedTop a).rows := hsub.subset hr
    rcases cleanedTop_id_numOrNull a r hmem with h0 | ⟨m, e, hme⟩
    · exact absurd h0 (hnn r hr)
    · exact ⟨m, e, hme⟩
  · intro r hr
    obtain ⟨hsub, hnn, -, -, -⟩ := dedup_dropna_spec (cleanedGd b) "id"
    have hmem : r ∈ (cleanedGd b).rows := hsub.subset hr
    rcases cleanedGd_id_numOrNull b r hmem with h0 | ⟨m, e, hme⟩
    · exact absurd h0 (hnn r hr)
    · exact ⟨m, e, hme⟩

/-- Identifiers are pairwise distinct in both transformed frames. -/
theorem transform_ids_pairwise (a b : Table) (s' : MoviesETL)
    (h : transform ⟨a, b⟩ = .ok s') :
    s'.df_top_rated.rows.Pairwise (fun r1 r2 => r1.get "id" ≠ r2.get "id") ∧
    s'.df_genre_director.rows.Pairwise (fun r1 r2 => r1.get "id" ≠ r2.get "id") := by
  obtain ⟨sc, hsc, hs'⟩ := transform_shape a b s' h
  subst hs'
  exact ⟨(dedup_dropna_spec sc.df_top_rated "id").2.2.2.1,
         (dedup_dropna_spec sc.df_genre_director "id").2.2.2.1⟩

/-- The unified frame repeats the transformed ratings frame's identifier
column: one output row per left row, in order. -/
theorem pipeline_map_id (a b : Table) (s' : MoviesETL) (u : Table)
    (ht : transform ⟨a, b⟩ = .ok s') (hu : load_unify s' = .ok u) :
    u.rows.map (fun r => r.get "id") =
      s'.df_top_rated.rows.map (fun r => r.get "id") := by
  obtain ⟨hid1, hid2, u0, hsel, hu0⟩ := load_unify_shape s' u hu
  obtain ⟨hcols0, hrows0, -⟩ := select_ok _ _ _ hsel
  subst hu0
  rw [fixReleaseDate_map_get u0 "id" (by decide), hrows0, List.map_map]
  have hstep : (Table.merge s'.df_top_rated s'.df_genre_director "id").rows.map
      ((fun r => Row.get r "id") ∘ fun r => column_order.map (fun c => (c, r.get c))) =
      (Table.merge s'.df_top_rated s'.df_genre_director "id").rows.map
      (fun r => r.get "id") := by
    refine List.map_congr_left ?_
    intro r hr
    exact select_row_get r column_order "id" (by decide)
  rw [hstep]
  exact merge_rows_map_id s'.df_top_rated s'.df_genre_director hid1
    (transform_ids_pairwise a b s' ht).2

/-- A non-key column present in both frames disappears from the merged frame:
both copies get suffixed. -/
theorem merge_cols_no_shared (a b : Table) (t : String)
    (ht_x : ∀ c, c ++ "_x" ≠ t) (ht_y : ∀ c, c ++ "_y" ≠ t) (htk : t ≠ "id")
    (hta : t ∈ a.cols) (htb : t ∈ b.cols) :
    t ∉ (Table.merge a b "id").cols := by
  simp only [Table.merge, List.mem_append, List.mem_map, List.mem_filter]
  rintro (⟨c, hc, hcr⟩ | ⟨c, hc, hcr⟩)
  · exact renameCol_ne b.cols "id" "_x" t c ht_x htk htb hcr
  · exact renameCol_ne a.cols "id" "_y" t c ht_y htk hta hcr

/-- `load_unify` fails whenever its column projection fails. -/
theorem load_unify_error_of_select (s : MoviesETL)
    (hsel : ∃ e, (Table.merge s.df_top_rated s.df_genre_director "id").select column_order
      = .error e) :
    ∃ e, load_unify s = .error e := by
  obtain ⟨e, he⟩ := hsel
  simp only [load_unify]
  split
  · rw [he, except_bind_err]
    exact ⟨e, rfl⟩
  · exact ⟨_, rfl⟩

/-- With every required column present (after name stripping), `transform`
succeeds, producing the cleaned-deduplicated frames. -/
theorem transform_ok_of_cols (a b : Table)
    (h1 : "id" ∈ a.cols.map strTrim) (h2 : "release_date" ∈ a.cols.map strTrim)
    (h3 : "popularity" ∈ a.cols.map strTrim) (h4 : "vote_average" ∈ a.cols.map strTrim)
    (h5 : "vote_count" ∈ a.cols.map strTrim) (h6 : "id" ∈ b.cols.map strTrim) :
    transform ⟨a, b⟩ =
      .ok ⟨dropNa (dropDuplicatesFirst (cleanedTop a) "id") "id",
           dropNa (dropDuplicatesFirst (cleanedGd b) "id") "id"⟩ := by
  have hclean := transform_clean_ok a b (by rw [stripCols_cols]; exact h1)
    (by rw [stripCols_cols]; exact h6) (by rw [stripCols_cols]; exact h2)
    (by rw [stripCols_cols]; exact h3) (by rw [stripCols_cols]; exact h4)
    (by rw [stripCols_cols]; exact h5)
  simp [transform, hclean, except_bind_ok, except_pure]

/-! ## Concrete example inputs (shared by witnesses and counterexamples) -/

/-- A small ratings table of the expected shape (spec §8 scenario). -/
def exTop : Table :=
  { cols := ["id", "title", "overview", "release_date", "popularity", "vote_average",
             "vote_count"],
    rows := [[("id", .str "1"), ("title", .str "Matrix"), ("overview", .null),
              ("release_date", .str "1999-05-01"), ("popularity", .str "10.5"),
              ("vote_average", .str "7.5"), ("vote_count", .str "500")]] }

/-- A matching genre/director table. -/
def exGd : Table :=
  { cols := ["id", "genre", "director"],
    rows := [[("id", .str "1"), ("genre", .str "Action,Drama"), ("director", .str "X")]] }

/-- A genre/director table whose genre cell is pipe-delimited. -/
def exGdPipe : Table :=
  { cols := ["id", "genre", "director"],
    rows := [[("id", .str "1"), ("genre", .str "Action|Drama"), ("director", .null)]] }

/-- A genre/director table that also carries a `title` column. -/
def exGdTitle : Table :=
  { cols := ["id", "title", "genre", "director"],
    rows := [[("id", .str "1"), ("title", .str "FilledTitle"), ("genre", .str "Action"),
              ("director", .null)]] }

/-- A ratings table whose only row has a missing title. -/
def exTopNoTitle : Table :=
  { cols := ["id", "title", "overview", "release_date", "popularity", "vote_average",
             "vote_count"],
    rows := [[("id", .str "1"), ("title", .null), ("overview", .null),
              ("release_date", .null), ("popularity", .null), ("vote_average", .null),
              ("vote_count", .null)]] }

/-- A table with no identifier column at all. -/
def exNoId : Table :=
  { cols := ["title"], rows := [[("title", .str "A")]] }

/-! ## Claims -/

/-- C1: for every pair of input tables on which transform and the merge
succeed, `load_unify` performs the left outer join on `id` and produces
exactly one canonical record per row of the left (transformed ratings) table,
preserving the left table's row order — stated as: the unified frame has one
row per left row and repeats the left frame's identifier column in order. -/
theorem claim_C1 (a b : Table) (s' : MoviesETL) (u : Table)
    (ht : transform ⟨a, b⟩ = .ok s') (hu : load_unify s' = .ok u) :
    u.rows.length = s'.df_top_rated.rows.length ∧
    u.rows.map (fun r => r.get "id") = s'.df_top_rated.rows.map (fun r => r.get "id") := by
  have hmap := pipeline_map_id a b s' u ht hu
  refine ⟨?_, hmap⟩
  have hlen := congrArg List.length hmap
  simpa using hlen

/-- Witness for C1 at the concrete example inputs. -/
theorem claim_C1_witness :
    ∃ s' u, transform ⟨exTop, exGd⟩ = .ok s' ∧ load_unify s' = .ok u ∧
      u.rows.length = s'.df_top_rated.rows.length ∧
      u.rows.map (fun r => r.get "id") = s'.df_top_rated.rows.map (fun r => r.get "id") :=
  ⟨_, _, rfl, rfl, claim_C1 exTop exGd _ _ rfl rfl⟩

/-- C7: reconciliation is deterministic — the pipeline is a pure function of
the two input tables, so running it twice on equal inputs yields identical
canonical output. -/
theorem claim_C7 (a b a2 b2 : Table) (h1 : a = a2) (h2 : b = b2) :
    run_pipeline a b = run_pipeline a2 b2 := by
  subst h1
  subst h2
  rfl

/-- Witness for C7: two runs on the example inputs agree. -/
theorem claim_C7_witness : run_pipeline exTop exGd = run_pipeline exTop exGd :=
  claim_C7 exTop exGd exTop exGd rfl rfl

/-- C8: after reconciliation every record of the canonical output has a
non-null identifier. -/
theorem claim_C8 (a b : Table) (s' : MoviesETL) (u : Table)
    (ht : transform ⟨a, b⟩ = .ok s') (hu : load_unify s' = .ok u) :
    ∀ r ∈ u.rows, r.get "id" ≠ Cell.null := by
  intro r hr
  have hmap := pipeline_map_id a b s' u ht hu
  have hmem : r.get "id" ∈ s'.df_top_rated.rows.map (fun r => r.get "id") := by
    rw [← hmap]
    exact List.mem_map_of_mem _ hr
  obtain ⟨r0, hr0, heq⟩ := List.mem_map.mp hmem
  obtain ⟨m, e, hme⟩ := (transform_ids_num a b s' ht).1 r0 hr0
  rw [← heq, hme]
  simp

/-- Witness for C8 at the concrete example inputs. -/
theorem claim_C8_witness :
    ∃ s' u, transform ⟨exTop, exGd⟩ = .ok s' ∧ load_unify s' = .ok u ∧
      ∀ r ∈ u.rows, r.get "id" ≠ Cell.null :=
  ⟨_, _, rfl, rfl, claim_C8 exTop exGd _ _ rfl rfl⟩

/-- C3: with the required columns present, a cell-level parse failure never
raises and never aborts the run — `transform` succeeds on every input, and
each coerced cell is numeric/date or absent (a failing cell is mapped to
absent and the run continues). -/
theorem claim_C3 (a b : Table)
    (h1 : "id" ∈ a.cols.map strTrim) (h2 : "release_date" ∈ a.cols.map strTrim)
    (h3 : "popularity" ∈ a.cols.map strTrim) (h4 : "vote_average" ∈ a.cols.map strTrim)
    (h5 : "vote_count" ∈ a.cols.map strTrim) (h6 : "id" ∈ b.cols.map strTrim) :
    ∃ s', transform ⟨a, b⟩ = .ok s' ∧
      ∀ r ∈ s'.df_top_rated.rows,
        (∃ m e, r.get "id" = Cell.num m e) ∧
        numOrNull (r.get "popularity") ∧ numOrNull (r.get "vote_average") ∧
        numOrNull (r.get "vote_count") ∧ dateOrNull (r.get "release_date") := by
  have hok := transform_ok_of_cols a b h1 h2 h3 h4 h5 h6
  refine ⟨_, hok, ?_⟩
  intro r hr
  have hid := (transform_ids_num a b _ hok).1 r hr
  obtain ⟨hsub, -, -, -, -⟩ := dedup_dropna_spec (cleanedTop a) "id"
  have hmem : r ∈ (cleanedTop a).rows := hsub.subset hr
  obtain ⟨hp, hva, hvc, hrd⟩ := cleanedTop_numCols a r hmem
  exact ⟨hid, hp, hva, hvc, hrd⟩

/-- Witness for C3: an unparsable date, popularity, vote average and vote
count all coerce to absent without aborting. -/
theorem claim_C3_witness :
    ∃ s', transform ⟨exTopNoTitle, exGd⟩ = .ok s' ∧
      ∀ r ∈ s'.df_top_rated.rows,
        (∃ m e, r.get "id" = Cell.num m e) ∧
        numOrNull (r.get "popularity") ∧ numOrNull (r.get "vote_average") ∧
        numOrNull (r.get "vote_count") ∧ dateOrNull (r.get "release_date") :=
  claim_C3 exTopNoTitle exGd (by decide) (by decide) (by decide) (by decide) (by decide)
    (by decide)

/-- C4 counterexample: on a table with no identifier column, reconciliation
does fail — `transform` raises a key error instead of synthesising defaults. -/
theorem claim_C4_counterexample : transform ⟨exNoId, exGd⟩ = .error "KeyError: id" := rfl

/-- C4 amended: when the ratings table has no column named `id` (after name
stripping), the transform step fails with an error; no synthetic identifier,
no title-from-id default and no all-absent columns are produced. -/
theorem claim_C4_amended (a b : Table) (h : "id" ∉ a.cols.map strTrim) :
    ∃ e, transform ⟨a, b⟩ = .error e := by
  cases hclean : transform_clean ⟨a, b⟩ with
  | error e =>
    exact ⟨e, by simp [transform, hclean, except_bind_err]⟩
  | ok sc =>
    obtain ⟨-, hid, -⟩ := transform_clean_shape a b sc hclean
    rw [stripCols_cols] at hid
    exact absurd hid h

/-- Witness for the amended C4 at the concrete example input. -/
theorem claim_C4_amended_witness : ∃ e, transform ⟨exNoId, exGd⟩ = .error e :=
  claim_C4_amended exNoId exGd (by decide)

/-- C9: the transform step silently drops rows — each transformed frame is a
sublist of its cleaned frame keeping exactly the first-encountered row per
parsed identifier, rows whose identifier failed numeric parsing are gone
(every survivor has a float identifier), identifiers are pairwise distinct in
both transformed frames, every parsable identifier stays represented, and the
canonical output inherits the distinctness. -/
theorem claim_C9 (a b : Table) (sc s' : MoviesETL)
    (hc : transform_clean ⟨a, b⟩ = .ok sc) (ht : transform ⟨a, b⟩ = .ok s') :
    List.Sublist s'.df_top_rated.rows sc.df_top_rated.rows ∧
    List.Sublist s'.df_genre_director.rows sc.df_genre_director.rows ∧
    (∀ r ∈ s'.df_top_rated.rows, ∃ m e, r.get "id" = Cell.num m e) ∧
    (∀ r ∈ s'.df_genre_director.rows, ∃ m e, r.get "id" = Cell.num m e) ∧
    (∀ r ∈ s'.df_top_rated.rows,
      sc.df_top_rated.rows.find? (fun r0 => r0.get "id" == r.get "id") = some r) ∧
    (∀ r ∈ s'.df_genre_director.rows,
      sc.df_genre_director.rows.find? (fun r0 => r0.get "id" == r.get "id") = some r) ∧
    s'.df_top_rated.rows.Pairwise (fun r1 r2 => r1.get "id" ≠ r2.get "id") ∧
    s'.df_genre_director.rows.Pairwise (fun r1 r2 => r1.get "id" ≠ r2.get "id") ∧
    (∀ r ∈ sc.df_top_rated.rows, r.get "id" ≠ Cell.null →
      ∃ r' ∈ s'.df_top_rated.rows, r'.get "id" = r.get "id") ∧
    (∀ r ∈ sc.df_genre_director.rows, r.get "id" ≠ Cell.null →
      ∃ r' ∈ s'.df_genre_director.rows, r'.get "id" = r.get "id") ∧
    (∀ u, load_unify s' = .ok u →
      u.rows.Pairwise (fun r1 r2 => r1.get "id" ≠ r2.get "id")) := by
  obtain ⟨sc2, hsc2, hs'⟩ := transform_shape a b s' ht
  rw [hc] at hsc2
  have hsc2' := Except.ok.inj hsc2
  subst hsc2'
  have hnum := transform_ids_num a b s' ht
  obtain ⟨hsubT, -, hfirstT, hpwT, hcompT⟩ := dedup_dropna_spec sc.df_top_rated "id"
  obtain ⟨hsubG, -, hfirstG, hpwG, hcompG⟩ := dedup_dropna_spec sc.df_genre_director "id"
  refine ⟨?_, ?_, hnum.1, hnum.2, ?_, ?_, ?_, ?_, ?_, ?_, ?_⟩
  · rw [hs']
    exact hsubT
  · rw [hs']
    exact hsubG
  · rw [hs']
    exact hfirstT
  · rw [hs']
    exact hfirstG
  · rw [hs']
    exact hpwT
  · rw [hs']
    exact hpwG
  · rw [hs']
    exact hcompT
  · rw [hs']
    exact hcompG
  · intro u hu
    have hmap := pipeline_map_id a b s' u ht hu
    have hpw' : (u.rows.map (fun r => r.get "id")).Pairwise (fun x y => x ≠ y) := by
      rw [hmap, hs']
      exact List.pairwise_map.mpr hpwT
    exact List.pairwise_map.mp hpw'

/-- Witness for C9 at the concrete example inputs. -/
theorem claim_C9_witness :
    ∃ sc s', transform_clean ⟨exTop, exGd⟩ = .ok sc ∧ transform ⟨exTop, exGd⟩ = .ok s' ∧
      List.Sublist s'.df_top_rated.rows sc.df_top_rated.rows ∧
      s'.df_top_rated.rows.Pairwise (fun r1 r2 => r1.get "id" ≠ r2.get "id") :=
  ⟨_, _, rfl, rfl, (claim_C9 exTop exGd _ _ rfl rfl).1,
    (claim_C9 exTop exGd _ _ rfl rfl).2.2.2.2.2.2.1⟩

/-- A small unified frame: one comma-delimited genre row, one absent genre. -/
def exUnified : Table :=
  { cols := column_order,
    rows := [[("id", Cell.num 1 0), ("genre", Cell.str "Action,Drama")],
             [("id", Cell.num 2 0), ("genre", Cell.null)]] }

/-- A unified row with a fractional vote count. -/
def exMysqlRow : Row :=
  [("id", .num 1 0), ("title", .str "t"), ("genre", .null), ("director", .null),
   ("overview", .null), ("release_date", .null), ("popularity", .null),
   ("vote_average", .null), ("vote_count", .num 125 1)]

/-- A unified row with a 305-character director. -/
def exMysqlRowLong : Row :=
  [("id", .num 1 0), ("title", .str "t"), ("genre", .null),
   ("director", .str (String.mk (List.replicate 305 'a'))),
   ("overview", .null), ("release_date", .null), ("popularity", .null),
   ("vote_average", .null), ("vote_count", .null)]

/-- C6: the genre/director explosion contributes zero fact rows for a movie
whose list cell is absent or holds no non-empty comma part, and no produced
fact ever carries an absent or empty genre/director (given the transformed
frames' invariant that list cells are strings or absent). -/
theorem claim_C6 (col : String) (u : Table)
    (h : ∀ r ∈ u.rows, strOrNull (r.get col)) :
    (∀ p ∈ explode_facts col u, ∃ g, p.2 = Cell.str g ∧ g ≠ "") ∧
    (∀ cols r, r.get col = Cell.null → explode_facts col ⟨cols, [r]⟩ = []) ∧
    (∀ cols r s, r.get col = Cell.str s →
      (∀ part ∈ strSplit ',' s, strTrim part = "") →
      explode_facts col ⟨cols, [r]⟩ = []) := by
  refine ⟨?_, ?_, ?_⟩
  · intro p hp
    simp only [explode_facts, List.mem_flatMap, List.mem_filter] at hp
    obtain ⟨r, ⟨hr, hpred⟩, hfact⟩ := hp
    rw [Bool.and_eq_true] at hpred
    have hcol : r.get col ≠ Cell.null := by
      have := hpred.2
      simp only [Bool.not_eq_true'] at this
      simpa using this
    rcases h r hr with h0 | ⟨s, hs⟩
    · exact absurd h0 hcol
    · rw [hs] at hfact
      simp only [List.mem_map, List.mem_filter, split_cell, List.mem_map] at hfact
      obtain ⟨g, ⟨⟨part, hpart, hg⟩, hne⟩, hpg⟩ := hfact
      refine ⟨strTrim part, ?_, ?_⟩
      · rw [← hpg, ← hg]
      · intro hempty
        rw [← hg, hempty] at hne
        simp at hne
  · intro cols r hcol
    simp [explode_facts, hcol]
  · intro cols r s hcol hparts
    have hfilter : ((split_cell (r.get col)).filter (fun g => g != Cell.str "")) = [] := by
      rw [List.filter_eq_nil_iff]
      intro g hg
      rw [hcol] at hg
      simp only [split_cell, List.mem_map] at hg
      obtain ⟨part, hpart, hgpart⟩ := hg
      rw [← hgpart, hparts part hpart]
      simp
    by_cases hid : r.get "id" = Cell.null
    · simp [explode_facts, hid]
    · have hpred : (!(r.get "id" == Cell.null) && !(r.get col == Cell.null)) = true := by
        simp [hid, hcol]
      show (List.filter _ [r]).flatMap _ = []
      rw [List.filter_cons, if_pos hpred, List.filter_nil, List.flatMap_cons,
        List.flatMap_nil, hfilter, List.map_nil, List.nil_append]

/-- Witness for C6: on the concrete unified frame the first produced fact
carries a non-empty string genre, and the absent-genre row alone produces
zero facts. -/
theorem claim_C6_witness :
    (∃ g, ((Cell.num 1 0, Cell.str "Action") : Cell × Cell).2 = Cell.str g ∧ g ≠ "") ∧
    explode_facts "genre" ⟨column_order, [[("id", Cell.num 2 0), ("genre", Cell.null)]]⟩ = [] :=
  ⟨(claim_C6 "genre" exUnified (by
      intro r hr
      simp only [exUnified, List.mem_cons, List.not_mem_nil, or_false] at hr
      rcases hr with rfl | rfl
      · exact Or.inr ⟨_, rfl⟩
      · exact Or.inl rfl)).1 (Cell.num 1 0, Cell.str "Action") (by decide),
   (claim_C6 "genre" ⟨column_order, [[("id", Cell.num 2 0), ("genre", Cell.null)]]⟩ (by
      intro r hr
      simp only [List.mem_cons, List.not_mem_nil, or_false] at hr
      subst hr
      exact Or.inl rfl)).2.1 column_order [("id", Cell.num 2 0), ("genre", Cell.null)] rfl⟩

/-- C10 counterexample: a fractional `vote_count` (`12.5`) is not passed to
the sink unmodified — `int()` truncates it to `12`, a different number. -/
theorem claim_C10_counterexample :
    ∃ t, load_to_mysql_row exMysqlRow = .ok t ∧
      exMysqlRow.get "vote_count" = Cell.num 125 1 ∧
      t.vote_count = some 12 ∧ (125 : Int) ≠ 12 * 10 ^ 1 :=
  ⟨_, rfl, rfl, rfl, by decide⟩

/-- C10 amended: in the upsert batch a string director longer than 300
characters (already stripped, as pipeline directors are) is truncated to its
first 300 characters and a shorter one is passed intact; title, genre,
overview and release_date pass unmodified; popularity and vote_average pass
numerically unchanged; but vote_count is cast with `int()`, truncating any
fractional part toward zero. -/
theorem claim_C10_amended (r : Row) (t : MovieTuple)
    (h : load_to_mysql_row r = .ok t) :
    t.title = r.get "title" ∧ t.genre = r.get "genre" ∧
    t.overview = r.get "overview" ∧ t.release_date = r.get "release_date" ∧
    (∀ s, r.get "director" = Cell.str s → strTrim s = s → 300 < s.data.length →
      t.director = Cell.str (String.mk (s.data.take 300))) ∧
    (∀ s, r.get "director" = Cell.str s → strTrim s = s → ¬ 300 < s.data.length →
      t.director = Cell.str s) ∧
    (r.get "director" = Cell.null → t.director = Cell.null) ∧
    (∀ m e, r.get "popularity" = Cell.num m e → t.popularity = some (m, e)) ∧
    (∀ m e, r.get "vote_average" = Cell.num m e → t.vote_average = some (m, e)) ∧
    (∀ m e, r.get "vote_count" = Cell.num m e → t.vote_count = some (pyIntOfDec m e)) := by
  simp only [load_to_mysql_row] at h
  cases hid : pyIntStrict (r.get "id") with
  | error e =>
    rw [hid, except_bind_err] at h
    exact absurd h (by simp)
  | ok idv =>
  rw [hid, except_bind_ok] at h
  cases hpop : pyFloatOpt (r.get "popularity") with
  | error e =>
    rw [hpop, except_bind_err] at h
    exact absurd h (by simp)
  | ok pop =>
  rw [hpop, except_bind_ok] at h
  cases hva : pyFloatOpt (r.get "vote_average") with
  | error e =>
    rw [hva, except_bind_err] at h
    exact absurd h (by simp)
  | ok va =>
  rw [hva, except_bind_ok] at h
  cases hvc : pyIntOpt (r.get "vote_count") with
  | error e =>
    rw [hvc, except_bind_err] at h
    exact absurd h (by simp)
  | ok vc =>
  rw [hvc, except_bind_ok, except_pure] at h
  have ht := (Except.ok.inj h).symm
  subst ht
  refine ⟨rfl, rfl, rfl, rfl, ?_, ?_, ?_, ?_, ?_, ?_⟩
  · intro s hs htrim hlen
    simp only [truncDirector, hs, htrim, if_pos hlen]
  · intro s hs htrim hlen
    simp only [truncDirector, hs, htrim, if_neg hlen]
  · intro hs
    simp only [truncDirector, hs]
  · intro m e hme
    rw [hme] at hpop
    simpa [pyFloatOpt] using (Except.ok.inj hpop).symm
  · intro m e hme
    rw [hme] at hva
    simpa [pyFloatOpt] using (Except.ok.inj hva).symm
  · intro m e hme
    rw [hme] at hvc
    simpa [pyIntOpt] using (Except.ok.inj hvc).symm

set_option maxRecDepth 8000 in
/-- Witness for the amended C10: a 305-character director is truncated to
300 characters while the title passes through. -/
theorem claim_C10_amended_witness :
    ∃ t, load_to_mysql_row exMysqlRowLong = .ok t ∧
      t.title = exMysqlRowLong.get "title" ∧
      t.director = Cell.str (String.mk (List.replicate 300 'a')) := by
  refine ⟨_, rfl, (claim_C10_amended exMysqlRowLong _ rfl).1, ?_⟩
  have hd := (claim_C10_amended exMysqlRowLong _ rfl).2.2.2.2.1
    (String.mk (List.replicate 305 'a')) rfl (by decide) (by decide)
  rw [hd]
  decide

/-- C2 counterexample: with a missing title in the ratings table and a
non-null title in the genre/director table, the merge does not fill the value
from B — `load_unify` aborts with a key error, because both title columns get
suffixed away. -/
theorem claim_C2_counterexample :
    ∃ s', transform ⟨exTopNoTitle, exGdTitle⟩ = .ok s' ∧
      s'.df_top_rated.rows.map (fun r => r.get "title") = [Cell.null] ∧
      s'.df_genre_director.rows.map (fun r => r.get "title") = [Cell.str "FilledTitle"] ∧
      load_unify s' = .error "KeyError" :=
  ⟨_, rfl, rfl, rfl, rfl⟩

/-- C2 amended: the merge has no fill-missing step at all — whenever both
input tables carry a `title` column (the only situation in which table B has
a corresponding column to fill from), `load_unify` fails with a key error
instead of producing a filled record. -/
theorem claim_C2_amended (a b : Table) (s' : MoviesETL)
    (hta : "title" ∈ a.cols.map strTrim) (htb : "title" ∈ b.cols.map strTrim)
    (ht : transform ⟨a, b⟩ = .ok s') :
    ∃ e, load_unify s' = .error e := by
  obtain ⟨sc, hsc, hs'⟩ := transform_shape a b s' ht
  obtain ⟨hsc_eq, -⟩ := transform_clean_shape a b sc hsc
  have htop : s'.df_top_rated.cols = a.cols.map strTrim := by
    rw [hs', hsc_eq]
    simp only [dropNa_cols, dropDuplicatesFirst_cols]
    exact cleanedTop_cols a
  have hgd : s'.df_genre_director.cols = b.cols.map strTrim := by
    rw [hs', hsc_eq]
    simp only [dropNa_cols, dropDuplicatesFirst_cols]
    exact cleanedGd_cols b
  refine load_unify_error_of_select s' ?_
  refine select_error _ column_order "title" (by decide) ?_
  refine merge_cols_no_shared _ _ "title" append_x_ne_title append_y_ne_title (by decide)
    ?_ ?_
  · rw [htop]
    exact hta
  · rw [hgd]
    exact htb

/-- Witness for the amended C2 at the concrete example inputs. -/
theorem claim_C2_amended_witness :
    ∃ s', transform ⟨exTopNoTitle, exGdTitle⟩ = .ok s' ∧ ∃ e, load_unify s' = .error e :=
  ⟨_, rfl, claim_C2_amended exTopNoTitle exGdTitle _ (by decide) (by decide) rfl⟩

/-- C5 counterexample: a pipe-delimited genre cell is not normalised to the
two-element sequence the claim demands — the whole string survives as a
single genre fact. -/
theorem claim_C5_counterexample :
    ∃ s' u, transform ⟨exTop, exGdPipe⟩ = .ok s' ∧ load_unify s' = .ok u ∧
      genre_facts u = [(Cell.num 1 0, Cell.str "Action|Drama")] ∧
      genre_facts u ≠ [(Cell.num 1 0, Cell.str "Action"), (Cell.num 1 0, Cell.str "Drama")] :=
  ⟨_, _, rfl, rfl, rfl, by decide⟩

/-- C5 amended: list normalisation splits on commas only — parts are
stripped of surrounding whitespace and empty parts dropped, so
`"Action, Drama"` yields the two genres, but a pipe-delimited value stays a
single element, a bracketed list literal is split into garbled bracketed
parts, and a null cell is dropped before splitting (zero facts). -/
theorem claim_C5_amended :
    split_cell (Cell.str "Action, Drama") = [Cell.str "Action", Cell.str "Drama"] ∧
    split_cell (Cell.str "Action|Drama") = [Cell.str "Action|Drama"] ∧
    genre_facts ⟨column_order, [[("id", Cell.num 1 0), ("genre", Cell.null)]]⟩ = [] ∧
    genre_facts ⟨column_order,
      [[("id", Cell.num 1 0), ("genre", Cell.str "['Action', 'Drama']")]]⟩ =
      [(Cell.num 1 0, Cell.str "['Action'"), (Cell.num 1 0, Cell.str "'Drama']")] :=
  ⟨rfl, rfl, rfl, rfl⟩
